import Mathlib

/-!
Verification development for the RMS restaurant point-of-sale core.

The definitions below are a shallow embedding of the request handlers under
`src/app/api/` (orders, order items, tables, table merge/unmerge, payments,
discounts) together with the zod validation schemas in `lib/validations.ts`.
Each handler becomes a pure function from a database state `DB` and the
request data to the updated state paired with the handler's outcome
(`Except ApiError _`).  Authentication/authorization guards (the `auth()`
session checks) are outside the modelled behaviour: every operation is taken
to be invoked by a sufficiently privileged caller.  Currency amounts, which
the TypeScript code manipulates as IEEE doubles, are modelled as exact
rationals `ℚ`.
-/

namespace RMS

/-- Order statuses, from the `updateOrderStatusSchema` enum. -/
inductive OrderStatus where
  | CREATED | PREPARING | READY | SERVED | PAID | CANCELLED
deriving DecidableEq, Repr, BEq

/-- Order item statuses, from the `updateOrderItemStatusSchema` enum. -/
inductive ItemStatus where
  | PENDING | PREPARING | READY | SERVED
deriving DecidableEq, Repr, BEq

/-- Table statuses, from the `updateTableSchema` enum. -/
inductive TableStatus where
  | VACANT | OCCUPIED | RESERVED | ORDER_PENDING
deriving DecidableEq, Repr, BEq

/-- Payment methods, from the `createPaymentSchema` enum. -/
inductive PayMethod where
  | CASH | CARD
deriving DecidableEq, Repr, BEq

/-- Discount types accepted by the apply-discount handler. -/
inductive DiscountType where
  | FIXED | PERCENTAGE
deriving DecidableEq, Repr, BEq

/-- Currency amounts.  The TypeScript source computes with JS numbers;
we model them as exact rationals. -/
abbrev Money := ℚ

/-- A catalog entry, as read by the order handlers (`prisma.menuItem`). -/
structure MenuItem where
  id : Nat
  price : Money
deriving DecidableEq, Repr

/-- A restaurant table row (`prisma.table`): status plus the nullable
`mergedWithId` link to a primary table. -/
structure Table where
  id : Nat
  status : TableStatus
  mergedWithId : Option Nat
deriving DecidableEq, Repr

/-- An order line item row (`prisma.orderItem`), with the unit price
snapshotted at order time. -/
structure OrderItem where
  id : Nat
  orderId : Nat
  menuItemId : Nat
  quantity : Int
  price : Money
  status : ItemStatus
deriving DecidableEq, Repr

/-- An order row (`prisma.order`).  `totalAmount` is the denormalized
total the handlers recompute on every item or discount change. -/
structure Order where
  id : Nat
  tableId : Option Nat
  status : OrderStatus
  discountType : Option DiscountType
  discountValue : Option Money
  totalAmount : Money
deriving DecidableEq, Repr

/-- A payment row (`prisma.payment`). -/
structure Payment where
  orderId : Nat
  amount : Money
  method : PayMethod
deriving DecidableEq, Repr

/-- The persisted state the handlers read and write.  `nextOrderId` and
`nextItemId` model the id generator of the persistence layer. -/
structure DB where
  tables : List Table
  orders : List Order
  orderItems : List OrderItem
  payments : List Payment
  menuItems : List MenuItem
  nextOrderId : Nat
  nextItemId : Nat
deriving DecidableEq, Repr

/-- Caller-facing outcomes of a handler.  `invalidInput` is a zod schema
failure (HTTP 400), `notFound` an explicit not-found response (404),
`internalError` a persistence-layer exception caught by the handler's
`try/catch` (500). -/
inductive ApiError where
  | invalidInput
  | notFound
  | itemNotRemovable
  | alreadyPaid
  | internalError
deriving DecidableEq, Repr

/-- `prisma.order.findUnique(\x7bwhere: \x7bid\x7d\x7d)`. -/
def DB.findOrder (db : DB) (oid : Nat) : Option Order :=
  db.orders.find? (fun o => o.id = oid)

/-- `prisma.table.findUnique(\x7bwhere: \x7bid\x7d\x7d)`. -/
def DB.findTable (db : DB) (tid : Nat) : Option Table :=
  db.tables.find? (fun t => t.id = tid)

/-- `prisma.menuItem.findUnique(\x7bwhere: \x7bid\x7d\x7d)`. -/
def DB.findMenuItem (db : DB) (mid : Nat) : Option MenuItem :=
  db.menuItems.find? (fun m => m.id = mid)

/-- `prisma.orderItem.findUnique(\x7bwhere: \x7bid\x7d\x7d)`. -/
def DB.findItem (db : DB) (iid : Nat) : Option OrderItem :=
  db.orderItems.find? (fun i => i.id = iid)

/-- The payment attached to an order (the 1:1 `payment` relation included
by `findUnique`). -/
def DB.paymentFor (db : DB) (oid : Nat) : Option Payment :=
  db.payments.find? (fun p => p.orderId = oid)

/-- The `items` relation of an order. -/
def DB.itemsOf (db : DB) (oid : Nat) : List OrderItem :=
  db.orderItems.filter (fun i => i.orderId = oid)

/-- The sum of line totals `price * quantity` over an order's items: the
`order.items.reduce((sum, item) => sum + item.price * item.quantity, 0)`
expression that every total-recomputing handler contains. -/
def subtotalOf (db : DB) (oid : Nat) : Money :=
  ((db.itemsOf oid).map (fun i => i.price * (i.quantity : Money))).sum

/-- `menuItemPrices.get(menuItemId) || 0`: the price of a catalog entry,
defaulting to 0 when the id does not resolve. -/
def priceOf (db : DB) (mid : Nat) : Money :=
  match db.findMenuItem mid with
  | some m => m.price
  | none => 0

/-- One requested order line, as validated by `createOrderSchema` /
`addOrderItemSchema` (`quantity: z.number().int().positive()`). -/
structure NewItemReq where
  menuItemId : Nat
  quantity : Int
deriving DecidableEq, Repr

/-- POST `/api/payments` (process payment).  Validates the payload
(`amount` must be positive), rejects unknown orders (404) and orders that
already carry a payment (`'Order already paid'`, 400); otherwise records
the payment, marks the order PAID, and — only when the order has a table —
sets that table VACANT and clears `mergedWithId` on every table merged
into it.  The two table writes happen in source order: first the status
write on the order's table, then the `updateMany` clearing the satellites. -/
def processPayment (db : DB) (oid : Nat) (amount : Money) (method : PayMethod) :
    DB × Except ApiError Payment :=
  if amount ≤ 0 then (db, .error .invalidInput)
  else
    match db.findOrder oid with
    | none => (db, .error .notFound)
    | some order =>
      match db.paymentFor oid with
      | some _ => (db, .error .alreadyPaid)
      | none =>
        let payment : Payment := ⟨oid, amount, method⟩
        let db1 : DB :=
          { db with
            payments := db.payments ++ [payment]
            orders := db.orders.map (fun o =>
              if o.id = oid then { o with status := .PAID } else o) }
        match order.tableId with
        | none => (db1, .ok payment)
        | some tid =>
          if db1.tables.any (fun t => t.id = tid) then
            let tables1 := db1.tables.map (fun t =>
              if t.id = tid then { t with status := .VACANT } else t)
            let tables2 := tables1.map (fun t =>
              if t.mergedWithId = some tid then
                { t with mergedWithId := none, status := TableStatus.VACANT }
              else t)
            ({ db1 with tables := tables2 }, .ok payment)
          else
            -- `prisma.table.update` throws after the payment was committed
            (db1, .error .internalError)

/-- POST `/api/tables/merge`.  `mergeTablesSchema` requires at least two
ids (`'At least 2 tables required'`); the first id becomes primary and is
set OCCUPIED, every other id gets `mergedWithId` pointing at the primary
and is set OCCUPIED.  The prisma `$transaction` is all-or-nothing, so a
missing id leaves the state unchanged.  The per-id updates of the
transaction are rendered as one structural map: each table is touched by
exactly the updates whose id matches it, and repeated identical updates
coincide with a single one. -/
def mergeTables (db : DB) (tableIds : List Nat) : DB × Except ApiError Unit :=
  if tableIds.length < 2 then (db, .error .invalidInput)
  else
    match tableIds with
    | [] => (db, .error .invalidInput)
    | primary :: others =>
      if tableIds.all (fun i => db.tables.any (fun t => t.id = i)) then
        let tables1 := db.tables.map (fun t =>
          if t.id = primary then { t with status := TableStatus.OCCUPIED } else t)
        let tables2 := tables1.map (fun t =>
          if t.id ∈ others then
            { t with mergedWithId := some primary, status := TableStatus.OCCUPIED }
          else t)
        ({ db with tables := tables2 }, .ok ())
      else (db, .error .internalError)

/-- POST `/api/tables/unmerge`.  Finds every table whose `mergedWithId`
is the given id, clears the link and sets it VACANT, and sets the primary
VACANT, all in one transaction. -/
def unmergeTables (db : DB) (tid : Nat) : DB × Except ApiError Unit :=
  if db.tables.any (fun t => t.id = tid) then
    let tables1 := db.tables.map (fun t =>
      if t.mergedWithId = some tid then
        { t with mergedWithId := none, status := TableStatus.VACANT }
      else t)
    let tables2 := tables1.map (fun t =>
      if t.id = tid then { t with status := TableStatus.VACANT } else t)
    ({ db with tables := tables2 }, .ok ())
  else (db, .error .internalError)

/-- The optional fields of `updateTableSchema`: an optional status and an
optional (nullable) `mergedWithId`. -/
structure TableUpdateReq where
  status : Option TableStatus
  mergedWithId : Option (Option Nat)
deriving DecidableEq, Repr

/-- PUT `/api/tables` (update a table).  Applies whichever of the two
optional fields are present; no other validation. -/
def updateTable (db : DB) (tid : Nat) (req : TableUpdateReq) :
    DB × Except ApiError Unit :=
  match db.findTable tid with
  | none => (db, .error .internalError)
  | some _ =>
    ({ db with tables := db.tables.map (fun t =>
        if t.id = tid then
          { t with
            status := req.status.getD t.status
            mergedWithId := req.mergedWithId.getD t.mergedWithId }
        else t) },
     .ok ())

/-- POST `/api/orders` (create order).  `createOrderSchema` demands a
nonempty item list and positive integer quantities.  The handler fetches
the referenced catalog entries, prices every line with
`menuItemPrices.get(id) || 0`, sums the line totals into `totalAmount`,
and issues one `prisma.order.create` with the nested `items.create`,
then sets the table OCCUPIED.  The foreign keys on the order's table
reference and the items' menu item references make that create throw —
persisting nothing — when the table or any referenced menu item does not
exist, and the handler answers only its caught generic 500: there is no
typed reference check.  When the create succeeds the table id is known
good, so the subsequent status write cannot fail. -/
def createOrder (db : DB) (tableId : Nat) (items : List NewItemReq) :
    DB × Except ApiError Order :=
  if items.isEmpty ∨ items.any (fun i => i.quantity ≤ 0) then
    (db, .error .invalidInput)
  else if (db.tables.any fun t => t.id = tableId) &&
      (items.all fun i => db.menuItems.any fun m => m.id = i.menuItemId) then
    let totalAmount : Money :=
      (items.map (fun i => priceOf db i.menuItemId * (i.quantity : Money))).sum
    let oid := db.nextOrderId
    let newItems : List OrderItem :=
      items.enum.map (fun p =>
        { id := db.nextItemId + p.1
          orderId := oid
          menuItemId := p.2.menuItemId
          quantity := p.2.quantity
          price := priceOf db p.2.menuItemId
          status := .PENDING })
    let order : Order :=
      { id := oid, tableId := some tableId, status := .CREATED
        discountType := none, discountValue := none, totalAmount := totalAmount }
    ({ db with
        orders := db.orders ++ [order]
        orderItems := db.orderItems ++ newItems
        nextOrderId := oid + 1
        nextItemId := db.nextItemId + items.length
        tables := db.tables.map (fun t =>
          if t.id = tableId then { t with status := TableStatus.OCCUPIED } else t) },
     .ok order)
  else
    -- the foreign key violation aborts the create: nothing is persisted
    (db, .error .internalError)

/-- POST `/api/orders/[id]` (add item to an existing order).  Validates
the quantity, answers 404 when the menu item is unknown, inserts the new
item with the snapshotted catalog price (the foreign key on `orderId`
makes the insert throw when the order is unknown), and rewrites the
order's `totalAmount` as the fresh sum of line totals over the now
current item set. -/
def addOrderItem (db : DB) (oid : Nat) (req : NewItemReq) :
    DB × Except ApiError OrderItem :=
  if req.quantity ≤ 0 then (db, .error .invalidInput)
  else
    match db.findMenuItem req.menuItemId with
    | none => (db, .error .notFound)
    | some m =>
      match db.findOrder oid with
      | none => (db, .error .internalError)
      | some _ =>
        let item : OrderItem :=
          { id := db.nextItemId, orderId := oid, menuItemId := req.menuItemId
            quantity := req.quantity, price := m.price, status := .PENDING }
        let db1 : DB :=
          { db with
            orderItems := db.orderItems ++ [item]
            nextItemId := db.nextItemId + 1 }
        let newTotal := subtotalOf db1 oid
        ({ db1 with orders := db1.orders.map (fun o =>
            if o.id = oid then { o with totalAmount := newTotal } else o) },
         .ok item)

/-- DELETE `/api/orders/[id]/items/[itemId]` (remove order item).  404
when the item is unknown; `'Can only remove items that have not been sent
to kitchen'` (400) when its status is not PENDING; otherwise deletes the
item and rewrites `totalAmount` of the order named in the route as the
sum over its remaining items (a missing order is silently skipped, as in
the handler's `if (order)` guard). -/
def removeOrderItem (db : DB) (oid : Nat) (iid : Nat) :
    DB × Except ApiError Unit :=
  match db.findItem iid with
  | none => (db, .error .notFound)
  | some item =>
    if item.status ≠ ItemStatus.PENDING then (db, .error .itemNotRemovable)
    else
      let db1 : DB :=
        { db with orderItems := db.orderItems.filter (fun i => ¬ i.id = iid) }
      match db1.findOrder oid with
      | none => (db1, .ok ())
      | some _ =>
        ({ db1 with orders := db1.orders.map (fun o =>
            if o.id = oid then { o with totalAmount := subtotalOf db1 oid } else o) },
         .ok ())

/-- PUT `/api/orders/[id]` (update order status).  The only validation is
`updateOrderStatusSchema`, i.e. membership in the status enum; the
handler writes the requested status straight into the order with no
transition check.  A missing order makes `prisma.order.update` throw
(500). -/
def updateOrderStatus (db : DB) (oid : Nat) (s : OrderStatus) :
    DB × Except ApiError Order :=
  match db.findOrder oid with
  | none => (db, .error .internalError)
  | some o =>
    ({ db with orders := db.orders.map (fun x =>
        if x.id = oid then { x with status := s } else x) },
     .ok { o with status := s })

/-- PUT `/api/orders/[id]/items/[itemId]` (update order item status).
The only validation is `updateOrderItemStatusSchema` (membership in the
item-status enum); the handler writes the requested status straight into
the item.  Afterwards, if every item of the order is READY and the order
is PREPARING, the order is advanced to READY. -/
def updateOrderItemStatus (db : DB) (iid : Nat) (s : ItemStatus) :
    DB × Except ApiError OrderItem :=
  match db.findItem iid with
  | none => (db, .error .internalError)
  | some item =>
    let db1 : DB :=
      { db with orderItems := db.orderItems.map (fun i =>
          if i.id = iid then { i with status := s } else i) }
    match db1.findOrder item.orderId with
    | none => (db1, .ok { item with status := s })
    | some o =>
      let allReady := (db1.itemsOf item.orderId).all (fun i => i.status == ItemStatus.READY)
      if allReady && (o.status == OrderStatus.PREPARING) then
        ({ db1 with orders := db1.orders.map (fun x =>
            if x.id = o.id then { x with status := OrderStatus.READY } else x) },
         .ok { item with status := s })
      else (db1, .ok { item with status := s })

/-- POST `/api/discounts` (apply discount to order).  After the role
gate (not modelled), looks the order up (404 when unknown), recomputes
the subtotal from the items, turns the requested discount into an
amount (PERCENTAGE: `subtotal * value / 100`; FIXED: the value), clamps
the amount at the subtotal, stores the discount fields and the new total
`max(0, subtotal - discountAmount)`.  The handler returns the computed
discount amount. -/
def applyDiscount (db : DB) (oid : Nat) (dtype : DiscountType) (dvalue : Money) :
    DB × Except ApiError Money :=
  match db.findOrder oid with
  | none => (db, .error .notFound)
  | some _ =>
    let subtotal := subtotalOf db oid
    let rawAmount : Money :=
      match dtype with
      | .PERCENTAGE => subtotal * dvalue / 100
      | .FIXED => dvalue
    let discountAmount := min rawAmount subtotal
    let newTotal := max 0 (subtotal - discountAmount)
    ({ db with orders := db.orders.map (fun o =>
        if o.id = oid then
          { o with
            discountType := some dtype
            discountValue := some dvalue
            totalAmount := newTotal }
        else o) },
     .ok discountAmount)

/-- DELETE `/api/discounts` (remove discount from order).  Looks the
order up (404 when unknown), clears the discount fields and rewrites
`totalAmount` as the undiscounted subtotal of the current items. -/
def removeDiscount (db : DB) (oid : Nat) : DB × Except ApiError Unit :=
  match db.findOrder oid with
  | none => (db, .error .notFound)
  | some _ =>
    let subtotal := subtotalOf db oid
    ({ db with orders := db.orders.map (fun o =>
        if o.id = oid then
          { o with
            discountType := none
            discountValue := none
            totalAmount := subtotal }
        else o) },
     .ok ())

/-! Spec-side pricing formulas, for comparison with the persisted totals.
These two definitions follow the wording of §4.2 of the specification
(DiscountAmount, Tax, GrandTotal with `TAX_RATE = 13%`); the client-side
`calculateOrderTotals` helper of the analytics page computes the same
shape at display time. -/

/-- The configured tax rate (13%). -/
def TAX_RATE : Money := 13 / 100

/-- Modelled from the spec (§4.2 DiscountAmount): FIXED discounts give
`min(value, subtotal)`, PERCENTAGE discounts give `subtotal * value /
100` clamped to the subtotal, no discount gives 0. -/
def specDiscountAmount (dt : Option DiscountType) (dv : Money) (subtotal : Money) :
    Money :=
  match dt with
  | none => 0
  | some .FIXED => min dv subtotal
  | some .PERCENTAGE => min (subtotal * dv / 100) subtotal

/-- Modelled from the spec (§4.2 GrandTotal): `subtotal − discount +
tax` with `tax = (subtotal − discount) * TAX_RATE`. -/
def specGrandTotal (subtotal disc : Money) : Money :=
  subtotal - disc + (subtotal - disc) * TAX_RATE

/-- The star-merge invariant on a table list: a table with
`mergedWithId` set is never itself the target of another table's merge
link. -/
def StarInvL (l : List Table) : Prop :=
  ∀ t ∈ l, t.mergedWithId ≠ none → ∀ u ∈ l, u.mergedWithId ≠ some t.id

/-- The star-merge invariant on a database state. -/
def StarInv (db : DB) : Prop := StarInvL db.tables

/-- The id generator is ahead of every id already in the database. -/
def IdsFresh (db : DB) : Prop :=
  (∀ o ∈ db.orders, o.id < db.nextOrderId) ∧
  (∀ i ∈ db.orderItems, i.orderId < db.nextOrderId)

/-- At most one payment row per order (the 1:1 `order ↔ payment`
relation). -/
def AtMostOnePayment (db : DB) : Prop :=
  db.payments.Pairwise (fun p q => p.orderId ≠ q.orderId)

instance (l : List Table) : Decidable (StarInvL l) := by
  unfold StarInvL; infer_instance

instance (db : DB) : Decidable (StarInv db) := by
  unfold StarInv; infer_instance

instance (db : DB) : Decidable (IdsFresh db) := by
  unfold IdsFresh; infer_instance

instance (db : DB) : Decidable (AtMostOnePayment db) := by
  unfold AtMostOnePayment; exact List.instDecidablePairwise _

/-- Looking an order up by id in an id-preserving rewrite of the order
list finds the rewrite of the original order. -/
theorem find?_id_map (l : List Order) (f : Order → Order) (oid : Nat)
    (hf : ∀ o, (f o).id = o.id) :
    (l.map f).find? (fun o => o.id = oid) =
      (l.find? (fun o => o.id = oid)).map f := by
  rw [List.find?_map]
  have h : ((fun o : Order => decide (o.id = oid)) ∘ f) =
      (fun o : Order => decide (o.id = oid)) := by
    funext o
    simp [Function.comp, hf]
  rw [h]

/-- Appending a payment for an order that has none preserves the
at-most-one-payment shape of the payment list. -/
theorem pairwise_payments_append (db : DB) (oid : Nat) (pay : Payment)
    (hpay : pay.orderId = oid) (hnone : db.paymentFor oid = none)
    (hm : AtMostOnePayment db) :
    (db.payments ++ [pay]).Pairwise (fun p q => p.orderId ≠ q.orderId) := by
  rw [List.pairwise_append]
  refine ⟨hm, List.pairwise_singleton _ _, ?_⟩
  intro a ha b hb
  simp only [List.mem_singleton] at hb
  subst hb
  rw [hpay]
  have := List.find?_eq_none.mp hnone a ha
  simpa using this

/-- C4: processing a payment for an order that already has one answers
`'Order already paid'` and leaves the whole database state unchanged —
no payment row is created and neither the order nor the tables move — and
consequently the operation preserves the at-most-one-payment-per-order
shape of the payment table. -/
theorem settle_already_paid :
    (∀ db oid amt m o p, 0 < amt → db.findOrder oid = some o →
        db.paymentFor oid = some p →
        processPayment db oid amt m = (db, .error .alreadyPaid)) ∧
    (∀ db oid amt m, AtMostOnePayment db →
        AtMostOnePayment (processPayment db oid amt m).1) := by
  constructor
  · intro db oid amt m o p hamt ho hp
    simp [processPayment, not_le.mpr hamt, ho, hp]
  · intro db oid amt m hm
    unfold processPayment
    split
    · exact hm
    · split
      · exact hm
      · split
        · exact hm
        · rename_i hamt order ho pay hp
          dsimp only
          split
          · exact pairwise_payments_append db oid _ rfl hp hm
          · split
            · exact pairwise_payments_append db oid _ rfl hp hm
            · exact pairwise_payments_append db oid _ rfl hp hm

/-- A state with one settled order, used to exercise the duplicate
settlement path. -/
def dbPaidOnce : DB :=
  { tables := []
    orders := [⟨1, none, .SERVED, none, none, 20⟩]
    orderItems := []
    payments := [⟨1, 20, .CASH⟩]
    menuItems := []
    nextOrderId := 2
    nextItemId := 1 }

/-- Witness for C4: settling order 1 of `dbPaidOnce` again is refused
and changes nothing. -/
theorem settle_already_paid_witness :
    processPayment dbPaidOnce 1 20 .CASH = (dbPaidOnce, .error .alreadyPaid) ∧
    AtMostOnePayment (processPayment dbPaidOnce 1 20 .CASH).1 :=
  ⟨settle_already_paid.1 dbPaidOnce 1 20 .CASH
      ⟨1, none, .SERVED, none, none, 20⟩ ⟨1, 20, .CASH⟩
      (by norm_num) (by with_unfolding_all rfl) (by with_unfolding_all rfl),
   settle_already_paid.2 dbPaidOnce 1 20 .CASH (by decide)⟩

/-- C10: for an existing order with no prior payment (and intact table
references), settlement succeeds for any positive amount and any current
order status whatsoever: the payment row is appended and the order is set
PAID.  Neither the amount nor the order's status is inspected — the
hypotheses mention no relation between `amt` and `o.totalAmount` and no
constraint on `o.status`, so a CREATED or CANCELLED order settles too. -/
theorem settle_no_amount_or_status_check (db : DB) (oid : Nat) (amt : Money)
    (m : PayMethod) (o : Order) (hamt : 0 < amt)
    (ho : db.findOrder oid = some o) (hp : db.paymentFor oid = none)
    (ht : ∀ tid, o.tableId = some tid → (db.tables.any fun t => t.id = tid) = true) :
    (processPayment db oid amt m).2 = .ok ⟨oid, amt, m⟩ ∧
    (processPayment db oid amt m).1.payments = db.payments ++ [⟨oid, amt, m⟩] ∧
    ∀ o' ∈ (processPayment db oid amt m).1.orders, o'.id = oid →
      o'.status = OrderStatus.PAID := by
  have horders : ∀ o' ∈ (db.orders.map (fun x =>
      if x.id = oid then { x with status := OrderStatus.PAID } else x)),
      o'.id = oid → o'.status = OrderStatus.PAID := by
    intro o' ho' hid
    rcases List.mem_map.mp ho' with ⟨x, hx, rfl⟩
    by_cases h : x.id = oid
    · rw [if_pos h]
    · rw [if_neg h] at hid ⊢
      exact absurd hid h
  simp only [processPayment, if_neg (not_le.mpr hamt), ho, hp]
  cases htid : o.tableId with
  | none => exact ⟨by trivial, by trivial, horders⟩
  | some tid =>
    have hany := ht tid htid
    simp only [hany, if_true]
    exact ⟨by trivial, by trivial, horders⟩

/-- A state with one CANCELLED, unpaid, tableless order whose recorded
total (20) differs from the tendered amount (5). -/
def dbCancelledOrder : DB :=
  { tables := []
    orders := [⟨1, none, .CANCELLED, none, none, 20⟩]
    orderItems := []
    payments := []
    menuItems := []
    nextOrderId := 2
    nextItemId := 1 }

/-- Witness for C10: the CANCELLED order of `dbCancelledOrder` settles
for 5 (its total is 20) and ends PAID. -/
theorem settle_no_amount_or_status_check_witness :
    (processPayment dbCancelledOrder 1 5 .CASH).2 = .ok ⟨1, 5, .CASH⟩ ∧
    (processPayment dbCancelledOrder 1 5 .CASH).1.payments =
      dbCancelledOrder.payments ++ [⟨1, 5, .CASH⟩] ∧
    ∀ o' ∈ (processPayment dbCancelledOrder 1 5 .CASH).1.orders, o'.id = 1 →
      o'.status = OrderStatus.PAID :=
  settle_no_amount_or_status_check dbCancelledOrder 1 5 .CASH
    ⟨1, none, .CANCELLED, none, none, 20⟩
    (by norm_num) (by with_unfolding_all rfl) (by with_unfolding_all rfl)
    (by intro tid h; exact Option.noConfusion h)

/-- C5: a successful settlement of an order attached to table `tid` sets
that table VACANT, clears the merge link (and sets VACANT) on every table
merged into it, and leaves every other table untouched; a successful
settlement of a tableless order leaves the table list exactly as it
was. -/
theorem settle_table_frame (db : DB) (oid : Nat) (amt : Money) (m : PayMethod)
    (o : Order) (hamt : 0 < amt) (ho : db.findOrder oid = some o)
    (hp : db.paymentFor oid = none) :
    (o.tableId = none → (processPayment db oid amt m).1.tables = db.tables) ∧
    (∀ tid, o.tableId = some tid →
      (db.tables.any fun t => t.id = tid) = true →
      ∀ t ∈ db.tables,
        (t.mergedWithId = some tid →
          (⟨t.id, TableStatus.VACANT, none⟩ : Table) ∈
            (processPayment db oid amt m).1.tables) ∧
        (t.id = tid → t.mergedWithId ≠ some tid →
          (⟨t.id, TableStatus.VACANT, t.mergedWithId⟩ : Table) ∈
            (processPayment db oid amt m).1.tables) ∧
        (t.id ≠ tid → t.mergedWithId ≠ some tid →
          t ∈ (processPayment db oid amt m).1.tables)) := by
  simp only [processPayment, if_neg (not_le.mpr hamt), ho, hp]
  constructor
  · intro h
    simp only [h]
  · intro tid htid hany t htmem
    simp only [htid, hany, if_true, List.map_map]
    refine ⟨?_, ?_, ?_⟩
    · intro hmrg
      refine List.mem_map.mpr ⟨t, htmem, ?_⟩
      by_cases hid : t.id = tid <;>
        simp [Function.comp, hid, hmrg]
    · intro hid hmrg
      refine List.mem_map.mpr ⟨t, htmem, ?_⟩
      simp [Function.comp, hid, hmrg]
    · intro hid hmrg
      refine List.mem_map.mpr ⟨t, htmem, ?_⟩
      simp [Function.comp, hid, hmrg]

/-- C2 (amended): the order-status update endpoint performs no
transition validation at all.  For every existing order and every target
status in the enum — PAID straight from CREATED included — the update
succeeds and writes the requested status; only values outside the enum
are rejected, by the zod schema. -/
theorem update_order_status_unchecked (db : DB) (oid : Nat) (s : OrderStatus)
    (o : Order) (ho : db.findOrder oid = some o) :
    (updateOrderStatus db oid s).2 = .ok { o with status := s } ∧
    ∀ o' ∈ (updateOrderStatus db oid s).1.orders, o'.id = oid → o'.status = s := by
  simp only [updateOrderStatus, ho]
  refine ⟨by trivial, ?_⟩
  intro o' ho' hid
  rcases List.mem_map.mp ho' with ⟨x, hx, rfl⟩
  by_cases h : x.id = oid
  · rw [if_pos h]
  · rw [if_neg h] at hid ⊢
    exact absurd hid h

/-- A state with one freshly CREATED order. -/
def dbCreatedOrder : DB :=
  { tables := []
    orders := [⟨1, none, .CREATED, none, none, 20⟩]
    orderItems := []
    payments := []
    menuItems := []
    nextOrderId := 2
    nextItemId := 1 }

/-- Counterexample for C2: a direct CREATED → PAID request on order 1 of
`dbCreatedOrder` is accepted and persisted, not rejected as an invalid
transition. -/
theorem created_to_paid_accepted :
    (updateOrderStatus dbCreatedOrder 1 .PAID).2 =
      .ok ⟨1, none, .PAID, none, none, 20⟩ ∧
    (updateOrderStatus dbCreatedOrder 1 .PAID).1.findOrder 1 =
      some ⟨1, none, .PAID, none, none, 20⟩ := by
  constructor <;> with_unfolding_all rfl

/-- Witness for C2 (amended): order 1 of `dbCreatedOrder` moves to
SERVED on request. -/
theorem update_order_status_unchecked_witness :
    (updateOrderStatus dbCreatedOrder 1 .SERVED).2 =
      .ok ⟨1, none, .SERVED, none, none, 20⟩ ∧
    ∀ o' ∈ (updateOrderStatus dbCreatedOrder 1 .SERVED).1.orders, o'.id = 1 →
      o'.status = OrderStatus.SERVED :=
  update_order_status_unchecked dbCreatedOrder 1 .SERVED
    ⟨1, none, .CREATED, none, none, 20⟩ (by with_unfolding_all rfl)

/-- C3 (amended): the item-status update endpoint performs no transition
validation either.  For every existing item and every target status in
the item enum — backward and skipping moves included, and in particular
the PENDING → READY shortcut — the update succeeds and writes the
requested status. -/
theorem update_item_status_unchecked (db : DB) (iid : Nat) (s : ItemStatus)
    (it : OrderItem) (hi : db.findItem iid = some it) :
    (updateOrderItemStatus db iid s).2 = .ok { it with status := s } ∧
    ∀ i ∈ (updateOrderItemStatus db iid s).1.orderItems, i.id = iid →
      i.status = s := by
  have hitems : ∀ i ∈ (db.orderItems.map (fun i =>
      if i.id = iid then { i with status := s } else i)),
      i.id = iid → i.status = s := by
    intro i hi' hid
    rcases List.mem_map.mp hi' with ⟨x, hx, rfl⟩
    by_cases h : x.id = iid
    · rw [if_pos h]
    · rw [if_neg h] at hid ⊢
      exact absurd hid h
  simp only [updateOrderItemStatus, hi]
  cases hord : ({ db with orderItems := db.orderItems.map (fun i =>
      if i.id = iid then { i with status := s } else i) } : DB).findOrder it.orderId with
  | none => exact ⟨by trivial, hitems⟩
  | some o =>
    dsimp only
    split
    · exact ⟨by trivial, hitems⟩
    · exact ⟨by trivial, hitems⟩

/-- A state whose single order item is already READY. -/
def dbReadyItem : DB :=
  { tables := []
    orders := [⟨1, none, .READY, none, none, 10⟩]
    orderItems := [⟨1, 1, 1, 1, 10, .READY⟩]
    payments := []
    menuItems := []
    nextOrderId := 2
    nextItemId := 2 }

/-- Counterexample for C3: a backward READY → PREPARING request on item
1 of `dbReadyItem` is accepted and persisted, not rejected. -/
theorem item_backward_move_accepted :
    (updateOrderItemStatus dbReadyItem 1 .PREPARING).2 =
      .ok ⟨1, 1, 1, 1, 10, .PREPARING⟩ ∧
    (updateOrderItemStatus dbReadyItem 1 .PREPARING).1.findItem 1 =
      some ⟨1, 1, 1, 1, 10, .PREPARING⟩ := by
  constructor <;> with_unfolding_all rfl

/-- Witness for C3 (amended): item 1 of `dbReadyItem` moves (backward)
to PENDING on request. -/
theorem update_item_status_unchecked_witness :
    (updateOrderItemStatus dbReadyItem 1 .PENDING).2 =
      .ok ⟨1, 1, 1, 1, 10, .PENDING⟩ ∧
    ∀ i ∈ (updateOrderItemStatus dbReadyItem 1 .PENDING).1.orderItems,
      i.id = 1 → i.status = ItemStatus.PENDING :=
  update_item_status_unchecked dbReadyItem 1 .PENDING
    ⟨1, 1, 1, 1, 10, .READY⟩ (by with_unfolding_all rfl)

/-- `subtotalOf` depends only on the item list. -/
theorem subtotal_congr (db1 db2 : DB) (oid : Nat)
    (h : db1.orderItems = db2.orderItems) :
    subtotalOf db1 oid = subtotalOf db2 oid := by
  simp [subtotalOf, DB.itemsOf, h]

/-- Applying a discount to an existing order leaves the item list alone
and keeps the order findable. -/
theorem applyDiscount_state (db : DB) (oid : Nat) (dt : DiscountType) (dv : Money)
    (o : Order) (ho : db.findOrder oid = some o) :
    (applyDiscount db oid dt dv).1.orderItems = db.orderItems ∧
    ∃ o', (applyDiscount db oid dt dv).1.findOrder oid = some o' := by
  simp only [applyDiscount, ho]
  refine ⟨by trivial, ?_⟩
  unfold DB.findOrder
  dsimp only
  rw [find?_id_map _ _ _ (fun x => by by_cases h : x.id = oid <;> simp [h])]
  rw [show db.orders.find? (fun x => x.id = oid) = some o from ho]
  exact ⟨_, rfl⟩

/-- Removing the discount of an existing order succeeds, leaves the item
list alone, clears the discount fields and stores the undiscounted
subtotal as the new total. -/
theorem removeDiscount_state (db : DB) (oid : Nat) (o : Order)
    (ho : db.findOrder oid = some o) :
    (removeDiscount db oid).2 = .ok () ∧
    (removeDiscount db oid).1.orderItems = db.orderItems ∧
    ∀ o' ∈ (removeDiscount db oid).1.orders, o'.id = oid →
      o'.totalAmount = subtotalOf db oid ∧ o'.discountType = none ∧
      o'.discountValue = none := by
  simp only [removeDiscount, ho]
  refine ⟨by trivial, by trivial, ?_⟩
  intro o' ho2 hid
  rcases List.mem_map.mp ho2 with ⟨x, hx, rfl⟩
  by_cases h : x.id = oid
  · simp [h]
  · rw [if_neg h] at hid
    exact absurd hid h

/-- C9: applying any discount and then removing it restores the
persisted `totalAmount` to the undiscounted subtotal of the order's
current items — exactly the total that removing a discount from the
untouched order produces — and clears the discount fields. -/
theorem discount_roundtrip (db : DB) (oid : Nat) (dt : DiscountType) (dv : Money)
    (o : Order) (ho : db.findOrder oid = some o) :
    (removeDiscount (applyDiscount db oid dt dv).1 oid).2 = .ok () ∧
    (∀ o' ∈ (removeDiscount (applyDiscount db oid dt dv).1 oid).1.orders,
        o'.id = oid →
        o'.totalAmount = subtotalOf db oid ∧ o'.discountType = none ∧
        o'.discountValue = none) ∧
    (∀ o' ∈ (removeDiscount db oid).1.orders, o'.id = oid →
        o'.totalAmount = subtotalOf db oid) := by
  obtain ⟨hitems1, o1, ho1⟩ := applyDiscount_state db oid dt dv o ho
  obtain ⟨hok, hitems2, hmain⟩ := removeDiscount_state _ oid o1 ho1
  obtain ⟨hok', hitems', hdirect⟩ := removeDiscount_state db oid o ho
  refine ⟨hok, ?_, fun o' h1 h2 => (hdirect o' h1 h2).1⟩
  intro o' h1 h2
  have hres := hmain o' h1 h2
  rwa [subtotal_congr _ db oid hitems1] at hres

/-- A state with a primary table 1 (order 1 attached), a satellite table
2 merged into it, and an unrelated table 3. -/
def dbMergedSettle : DB :=
  { tables := [⟨1, .OCCUPIED, none⟩, ⟨2, .OCCUPIED, some 1⟩, ⟨3, .VACANT, none⟩]
    orders := [⟨1, some 1, .SERVED, none, none, 25⟩]
    orderItems := []
    payments := []
    menuItems := []
    nextOrderId := 2
    nextItemId := 1 }

/-- Witness for C5: settling order 1 of `dbMergedSettle` frees primary
table 1 and satellite table 2 (link cleared) and leaves table 3 as it
was. -/
theorem settle_table_frame_witness :
    ((⟨2, TableStatus.VACANT, none⟩ : Table) ∈
      (processPayment dbMergedSettle 1 25 .CARD).1.tables) ∧
    ((⟨1, TableStatus.VACANT, none⟩ : Table) ∈
      (processPayment dbMergedSettle 1 25 .CARD).1.tables) ∧
    ((⟨3, TableStatus.VACANT, none⟩ : Table) ∈
      (processPayment dbMergedSettle 1 25 .CARD).1.tables) :=
  have h := (settle_table_frame dbMergedSettle 1 25 .CARD
      ⟨1, some 1, .SERVED, none, none, 25⟩
      (by norm_num) (by with_unfolding_all rfl) (by with_unfolding_all rfl)).2
      1 rfl (by with_unfolding_all rfl)
  ⟨(h ⟨2, .OCCUPIED, some 1⟩ (by decide)).1 rfl,
   (h ⟨1, .OCCUPIED, none⟩ (by decide)).2.1 rfl (by decide),
   (h ⟨3, .VACANT, none⟩ (by decide)).2.2 (by decide) (by decide)⟩

/-- A state with one order of two lines (2 × 10 and 1 × 5). -/
def dbTwoLines : DB :=
  { tables := []
    orders := [⟨1, none, .CREATED, none, none, 25⟩]
    orderItems := [⟨1, 1, 1, 2, 10, .PENDING⟩, ⟨2, 1, 2, 1, 5, .PENDING⟩]
    payments := []
    menuItems := [⟨1, 10⟩, ⟨2, 5⟩]
    nextOrderId := 2
    nextItemId := 3 }

/-- Witness for C9: a 10% discount applied to order 1 of `dbTwoLines`
and then removed brings the stored total back to the subtotal. -/
theorem discount_roundtrip_witness :
    (removeDiscount (applyDiscount dbTwoLines 1 .PERCENTAGE 10).1 1).2 = .ok () ∧
    (∀ o' ∈ (removeDiscount (applyDiscount dbTwoLines 1 .PERCENTAGE 10).1 1).1.orders,
        o'.id = 1 →
        o'.totalAmount = subtotalOf dbTwoLines 1 ∧ o'.discountType = none ∧
        o'.discountValue = none) ∧
    (∀ o' ∈ (removeDiscount dbTwoLines 1).1.orders, o'.id = 1 →
        o'.totalAmount = subtotalOf dbTwoLines 1) :=
  discount_roundtrip dbTwoLines 1 .PERCENTAGE 10
    ⟨1, none, .CREATED, none, none, 25⟩ (by with_unfolding_all rfl)

/-- A table rewrite that keeps every id and only ever clears (never
sets) merge links preserves the star invariant. -/
theorem starInvL_map (l : List Table) (f : Table → Table)
    (hid : ∀ t, (f t).id = t.id)
    (hm : ∀ t, (f t).mergedWithId = t.mergedWithId ∨ (f t).mergedWithId = none) :
    StarInvL l → StarInvL (l.map f) := by
  intro h t' ht' hne u' hu'
  rcases List.mem_map.mp ht' with ⟨t, ht, rfl⟩
  rcases List.mem_map.mp hu' with ⟨u, hu, rfl⟩
  rcases hm u with hu1 | hu1
  · rw [hu1, hid t]
    rcases hm t with ht1 | ht1
    · rw [ht1] at hne
      exact h t ht hne u hu
    · exact absurd ht1 hne
  · rw [hu1]
    simp

/-- C6 (amended): Unmerge and Settle preserve the star-merge invariant —
they only clear merge links, never set them.  Merge, however, checks
nothing about existing merge state and can create chains (see
`merge_creates_chain`), so the invariant does not hold in every state
reachable by the table operations. -/
theorem star_invariant_unmerge_settle :
    (∀ db tid, StarInv db → StarInv (unmergeTables db tid).1) ∧
    (∀ db oid amt m, StarInv db → StarInv (processPayment db oid amt m).1) := by
  constructor
  · intro db tid h
    unfold unmergeTables
    split
    · unfold StarInv at h ⊢
      dsimp only
      refine starInvL_map _ _ (fun t => ?_) (fun t => ?_)
        (starInvL_map _ _ (fun t => ?_) (fun t => ?_) h)
      · by_cases hc : t.id = tid <;> simp [hc]
      · by_cases hc : t.id = tid <;> simp [hc]
      · by_cases hc : t.mergedWithId = some tid <;> simp [hc]
      · by_cases hc : t.mergedWithId = some tid <;> simp [hc]
    · exact h
  · intro db oid amt m h
    unfold processPayment
    split
    · exact h
    · split
      · exact h
      · split
        · exact h
        · dsimp only
          split
          · exact h
          · rename_i tid heq
            split
            · unfold StarInv at h ⊢
              dsimp only
              refine starInvL_map _ _ (fun t => ?_) (fun t => ?_)
                (starInvL_map _ _ (fun t => ?_) (fun t => ?_) h)
              · by_cases hc : t.mergedWithId = some tid <;> simp [hc]
              · by_cases hc : t.mergedWithId = some tid <;> simp [hc]
              · by_cases hc : t.id = tid <;> simp [hc]
              · by_cases hc : t.id = tid <;> simp [hc]
            · exact h

/-- Three free tables. -/
def dbThreeTables : DB :=
  { tables := [⟨1, .VACANT, none⟩, ⟨2, .VACANT, none⟩, ⟨3, .VACANT, none⟩]
    orders := []
    orderItems := []
    payments := []
    menuItems := []
    nextOrderId := 1
    nextItemId := 1 }

/-- Counterexample for C6: merging [1, 2] and then [3, 1] — both
requests succeed — leaves table 1 with a merge link to 3 while table 2
still points at table 1: a depth-2 chain, violating the star
invariant in a state reachable by Merge alone. -/
theorem merge_creates_chain :
    StarInv dbThreeTables ∧
    (mergeTables dbThreeTables [1, 2]).2 = .ok () ∧
    (mergeTables (mergeTables dbThreeTables [1, 2]).1 [3, 1]).2 = .ok () ∧
    ¬ StarInv (mergeTables (mergeTables dbThreeTables [1, 2]).1 [3, 1]).1 :=
  ⟨by decide, by with_unfolding_all rfl, by with_unfolding_all rfl, by decide⟩

/-- Witness for C6 (amended): unmerging table 1 of `dbMergedSettle` and
settling its order both preserve the star invariant on that state. -/
theorem star_invariant_unmerge_settle_witness :
    StarInv (unmergeTables dbMergedSettle 1).1 ∧
    StarInv (processPayment dbMergedSettle 1 25 .CARD).1 :=
  ⟨star_invariant_unmerge_settle.1 dbMergedSettle 1 (by decide),
   star_invariant_unmerge_settle.2 dbMergedSettle 1 25 .CARD (by decide)⟩

/-- C7 (amended): the merge endpoint rejects fewer than two ids with the
schema's 400 validation error (`'At least 2 tables required'`), but
performs no already-merged check whatsoever: whenever at least two
existing table ids are given it succeeds regardless of any prior
`mergedWithId` values — the first table becomes primary with status
OCCUPIED (its own merge link untouched), every other listed table gets
`mergedWithId` set to the primary and status OCCUPIED, and unlisted
tables are unchanged. -/
theorem merge_tables_behavior :
    (∀ db ids, ids.length < 2 → mergeTables db ids = (db, .error .invalidInput)) ∧
    (∀ db primary others, others ≠ [] →
       (∀ i ∈ primary :: others, (db.tables.any fun t => t.id = i) = true) →
       (mergeTables db (primary :: others)).2 = .ok () ∧
       ∀ t ∈ db.tables,
         (t.id ∈ others →
            (⟨t.id, TableStatus.OCCUPIED, some primary⟩ : Table) ∈
              (mergeTables db (primary :: others)).1.tables) ∧
         (t.id = primary → t.id ∉ others →
            (⟨t.id, TableStatus.OCCUPIED, t.mergedWithId⟩ : Table) ∈
              (mergeTables db (primary :: others)).1.tables) ∧
         (t.id ≠ primary → t.id ∉ others →
            t ∈ (mergeTables db (primary :: others)).1.tables)) := by
  constructor
  · intro db ids h
    unfold mergeTables
    rw [if_pos h]
  · intro db primary others hne hall
    have hlen : ¬ (primary :: others).length < 2 := by
      cases others with
      | nil => exact absurd rfl hne
      | cons b bs => simp [List.length_cons]
    have hallb : ((primary :: others).all fun i => db.tables.any fun t => t.id = i) = true := by
      rw [List.all_eq_true]
      intro i hi
      exact hall i hi
    simp only [mergeTables, if_neg hlen, hallb, if_true]
    refine ⟨by trivial, ?_⟩
    intro t ht
    rw [List.map_map]
    refine ⟨?_, ?_, ?_⟩
    · intro hmem
      refine List.mem_map.mpr ⟨t, ht, ?_⟩
      by_cases hp : t.id = primary
      · rw [hp] at hmem
        simp [Function.comp, hp, hmem]
      · simp [Function.comp, hp, hmem]
    · intro hp hnm
      refine List.mem_map.mpr ⟨t, ht, ?_⟩
      rw [hp] at hnm
      simp [Function.comp, hp, hnm]
    · intro hp hnm
      refine List.mem_map.mpr ⟨t, ht, ?_⟩
      simp [Function.comp, hp, hnm]

/-- A pair of tables of which table 2 is already merged into table 3. -/
def dbSatellitePair : DB :=
  { tables := [⟨1, .VACANT, none⟩, ⟨2, .OCCUPIED, some 3⟩, ⟨3, .OCCUPIED, none⟩]
    orders := []
    orderItems := []
    payments := []
    menuItems := []
    nextOrderId := 1
    nextItemId := 1 }

/-- Counterexample for C7: merging [1, 2] while table 2 already has a
non-null `mergedWithId` (pointing at 3) is not rejected with
AlreadyMerged — it succeeds and re-points table 2 at table 1. -/
theorem merge_ignores_existing_merge :
    (mergeTables dbSatellitePair [1, 2]).2 = .ok () ∧
    (mergeTables dbSatellitePair [1, 2]).1.findTable 2 =
      some ⟨2, .OCCUPIED, some 1⟩ := by
  constructor <;> with_unfolding_all rfl

/-- Witness for C7 (amended): one id is rejected as invalid input;
merging tables 1 and 2 of `dbThreeTables` succeeds. -/
theorem merge_tables_behavior_witness :
    mergeTables dbThreeTables [1] = (dbThreeTables, .error .invalidInput) ∧
    (mergeTables dbThreeTables (1 :: [2])).2 = .ok () :=
  ⟨merge_tables_behavior.1 dbThreeTables [1] (by decide),
   (merge_tables_behavior.2 dbThreeTables 1 [2] (by decide) (by decide)).1⟩

/-- The line-total sum over the order items created from a request list
equals the line-total sum computed directly from the request. -/
theorem enum_items_line_sum (db : DB) (items : List NewItemReq) (oid base : Nat) :
    ((items.enum.map (fun p : Nat × NewItemReq =>
        ({ id := base + p.1, orderId := oid, menuItemId := p.2.menuItemId,
           quantity := p.2.quantity, price := priceOf db p.2.menuItemId,
           status := .PENDING } : OrderItem))).map
      (fun i => i.price * (i.quantity : Money))).sum =
    (items.map (fun i => priceOf db i.menuItemId * (i.quantity : Money))).sum := by
  rw [List.map_map]
  have h1 : ((fun i : OrderItem => i.price * (i.quantity : Money)) ∘
      (fun p : Nat × NewItemReq =>
        ({ id := base + p.1, orderId := oid, menuItemId := p.2.menuItemId,
           quantity := p.2.quantity, price := priceOf db p.2.menuItemId,
           status := .PENDING } : OrderItem))) =
      ((fun r : NewItemReq => priceOf db r.menuItemId * (r.quantity : Money)) ∘
        Prod.snd) := rfl
  rw [h1, ← List.map_map, List.enum_map_snd]

/-- The schema guard of the create-order handler is passed by a nonempty
request whose quantities are all positive. -/
theorem createOrder_guard_passes (items : List NewItemReq) (hne : items ≠ [])
    (hqty : ∀ i ∈ items, 0 < i.quantity) :
    ¬ (items.isEmpty = true ∨ (items.any fun i => decide (i.quantity ≤ 0)) = true) := by
  rintro (h | h)
  · exact hne (List.isEmpty_iff.mp h)
  · rcases List.any_eq_true.mp h with ⟨i, hi, hle⟩
    exact absurd (hqty i hi) (by simpa using hle)

/-- On a valid request against an existing table the create-order
handler succeeds: the created order carries id `db.nextOrderId`, no
discount and the request's line-total sum as its total; the new items
are appended to the item table and the order to the order table. -/
theorem createOrder_success (db : DB) (tid : Nat) (items : List NewItemReq)
    (hne : items ≠ []) (hqty : ∀ i ∈ items, 0 < i.quantity)
    (htab : (db.tables.any fun t => t.id = tid) = true)
    (hmi : (items.all fun i => db.menuItems.any fun m => m.id = i.menuItemId) = true) :
    (createOrder db tid items).2 =
      .ok { id := db.nextOrderId, tableId := some tid, status := .CREATED
            discountType := none, discountValue := none
            totalAmount := (items.map (fun i =>
              priceOf db i.menuItemId * (i.quantity : Money))).sum } ∧
    (createOrder db tid items).1.orderItems =
      db.orderItems ++ items.enum.map (fun p : Nat × NewItemReq =>
        ({ id := db.nextItemId + p.1, orderId := db.nextOrderId,
           menuItemId := p.2.menuItemId, quantity := p.2.quantity,
           price := priceOf db p.2.menuItemId, status := .PENDING } : OrderItem)) := by
  unfold createOrder
  rw [if_neg (createOrder_guard_passes items hne hqty)]
  have hcond : ((db.tables.any fun t => t.id = tid) &&
      (items.all fun i => db.menuItems.any fun m => m.id = i.menuItemId)) = true := by
    rw [Bool.and_eq_true]
    exact ⟨htab, hmi⟩
  rw [if_pos hcond]
  exact ⟨rfl, rfl⟩

/-- C1 part 1: the total persisted by CreateOrder is the plain subtotal
of the created order's items. -/
theorem total_after_createOrder (db : DB) (tid : Nat) (items : List NewItemReq)
    (hfresh : IdsFresh db) (hne : items ≠ []) (hqty : ∀ i ∈ items, 0 < i.quantity)
    (htab : (db.tables.any fun t => t.id = tid) = true)
    (hmi : (items.all fun i => db.menuItems.any fun m => m.id = i.menuItemId) = true) :
    ∃ o, (createOrder db tid items).2 = .ok o ∧ o.id = db.nextOrderId ∧
      o.discountType = none ∧
      o.totalAmount = subtotalOf (createOrder db tid items).1 o.id := by
  obtain ⟨h2, hitems⟩ := createOrder_success db tid items hne hqty htab hmi
  refine ⟨_, h2, rfl, rfl, ?_⟩
  unfold subtotalOf DB.itemsOf
  rw [hitems, List.filter_append]
  rw [List.filter_eq_nil_iff.mpr ?hold, List.nil_append,
    List.filter_eq_self.mpr ?hnew]
  case hold =>
    intro i hi
    simp only [decide_eq_true_eq]
    show ¬ i.orderId = db.nextOrderId
    exact Nat.ne_of_lt (hfresh.2 i hi)
  case hnew =>
    intro a ha
    rcases List.mem_map.mp ha with ⟨p, hp, rfl⟩
    simp
  exact (enum_items_line_sum db items db.nextOrderId db.nextItemId).symm

/-- C1 part 2: AddItems rewrites the order's total as the plain subtotal
of the now current item set. -/
theorem total_after_addOrderItem (db : DB) (oid : Nat) (req : NewItemReq)
    (m : MenuItem) (o : Order) (hq : 0 < req.quantity)
    (hm : db.findMenuItem req.menuItemId = some m)
    (ho : db.findOrder oid = some o) :
    ∀ o' ∈ (addOrderItem db oid req).1.orders, o'.id = oid →
      o'.totalAmount = subtotalOf (addOrderItem db oid req).1 oid := by
  simp only [addOrderItem, if_neg (not_le.mpr hq), hm, ho]
  intro o' ho' hid
  rcases List.mem_map.mp ho' with ⟨x, hx, rfl⟩
  by_cases h : x.id = oid
  · simp only [if_pos h]
    exact subtotal_congr _ _ oid rfl
  · rw [if_neg h] at hid ⊢
    exact absurd hid h

/-- C1 part 3: RemoveItem rewrites the order's total as the plain
subtotal of the remaining item set. -/
theorem total_after_removeOrderItem (db : DB) (oid iid : Nat) (it : OrderItem)
    (hit : db.findItem iid = some it) (hst : it.status = ItemStatus.PENDING) :
    ∀ o' ∈ (removeOrderItem db oid iid).1.orders, o'.id = oid →
      o'.totalAmount = subtotalOf (removeOrderItem db oid iid).1 oid := by
  have hne : ¬ it.status ≠ ItemStatus.PENDING := by simp [hst]
  simp only [removeOrderItem, hit, if_neg hne]
  split
  · rename_i hord
    intro o' ho' hid
    have hnone := List.find?_eq_none.mp hord o' ho'
    simp only [decide_eq_true_eq] at hnone
    exact absurd hid hnone
  · rename_i o2 hord
    intro o' ho' hid
    rcases List.mem_map.mp ho' with ⟨x, hx, rfl⟩
    by_cases h : x.id = oid
    · simp only [if_pos h]
      exact subtotal_congr _ _ oid rfl
    · rw [if_neg h] at hid ⊢
      exact absurd hid h

/-- C1 part 4: ApplyDiscount stores `max(0, subtotal − clamped
discount)`, where the clamped discount is the spec's DiscountAmount of
the stored discount fields. -/
theorem total_after_applyDiscount (db : DB) (oid : Nat) (dt : DiscountType)
    (dv : Money) (o : Order) (ho : db.findOrder oid = some o) :
    ∀ o' ∈ (applyDiscount db oid dt dv).1.orders, o'.id = oid →
      o'.totalAmount = max 0 (subtotalOf (applyDiscount db oid dt dv).1 oid -
        specDiscountAmount o'.discountType (o'.discountValue.getD 0)
          (subtotalOf (applyDiscount db oid dt dv).1 oid)) := by
  have hsub : subtotalOf (applyDiscount db oid dt dv).1 oid = subtotalOf db oid :=
    subtotal_congr _ _ oid (applyDiscount_state db oid dt dv o ho).1
  intro o' ho' hid
  rw [hsub]
  simp only [applyDiscount, ho] at ho'
  rcases List.mem_map.mp ho' with ⟨x, hx, rfl⟩
  by_cases h : x.id = oid
  · simp only [if_pos h]
    cases dt <;> simp [specDiscountAmount]
  · rw [if_neg h] at hid
    exact absurd hid h

/-- C1 part 5: RemoveDiscount stores the plain subtotal and clears the
discount type. -/
theorem total_after_removeDiscount (db : DB) (oid : Nat) (o : Order)
    (ho : db.findOrder oid = some o) :
    ∀ o' ∈ (removeDiscount db oid).1.orders, o'.id = oid →
      o'.totalAmount = subtotalOf (removeDiscount db oid).1 oid ∧
      o'.discountType = none := by
  obtain ⟨hok, hitems, hmain⟩ := removeDiscount_state db oid o ho
  intro o' ho' hid
  obtain ⟨ht, hdt, hdv⟩ := hmain o' ho' hid
  refine ⟨?_, hdt⟩
  rw [ht, subtotal_congr _ db oid hitems]

/-- C1 (amended): every total-recomputing operation persists
`totalAmount` without a tax term.  CreateOrder, AddItems, RemoveItem and
RemoveDiscount store the plain line-total subtotal of the resulting item
set (AddItems and RemoveItem do so even when discount fields remain
set), and ApplyDiscount stores `max(0, subtotal − min(discountAmount,
subtotal))` with the spec's DiscountAmount of the stored fields. -/
theorem persisted_total_formula :
    (∀ db tid (items : List NewItemReq), IdsFresh db → items ≠ [] →
      (∀ i ∈ items, 0 < i.quantity) →
      (db.tables.any fun t => t.id = tid) = true →
      (items.all fun i => db.menuItems.any fun m => m.id = i.menuItemId) = true →
      ∃ o, (createOrder db tid items).2 = .ok o ∧ o.id = db.nextOrderId ∧
        o.discountType = none ∧
        o.totalAmount = subtotalOf (createOrder db tid items).1 o.id) ∧
    (∀ db oid req m o, 0 < req.quantity →
      db.findMenuItem req.menuItemId = some m → db.findOrder oid = some o →
      ∀ o' ∈ (addOrderItem db oid req).1.orders, o'.id = oid →
        o'.totalAmount = subtotalOf (addOrderItem db oid req).1 oid) ∧
    (∀ db oid iid it, db.findItem iid = some it →
      it.status = ItemStatus.PENDING →
      ∀ o' ∈ (removeOrderItem db oid iid).1.orders, o'.id = oid →
        o'.totalAmount = subtotalOf (removeOrderItem db oid iid).1 oid) ∧
    (∀ db oid dt dv o, db.findOrder oid = some o →
      ∀ o' ∈ (applyDiscount db oid dt dv).1.orders, o'.id = oid →
        o'.totalAmount = max 0 (subtotalOf (applyDiscount db oid dt dv).1 oid -
          specDiscountAmount o'.discountType (o'.discountValue.getD 0)
            (subtotalOf (applyDiscount db oid dt dv).1 oid))) ∧
    (∀ db oid o, db.findOrder oid = some o →
      ∀ o' ∈ (removeDiscount db oid).1.orders, o'.id = oid →
        o'.totalAmount = subtotalOf (removeDiscount db oid).1 oid ∧
        o'.discountType = none) :=
  ⟨total_after_createOrder, total_after_addOrderItem, total_after_removeOrderItem,
   total_after_applyDiscount, total_after_removeDiscount⟩

/-- One table, one 10-priced menu item, nothing else. -/
def dbOneSoda : DB :=
  { tables := [⟨1, .VACANT, none⟩]
    orders := []
    orderItems := []
    payments := []
    menuItems := [⟨1, 10⟩]
    nextOrderId := 1
    nextItemId := 1 }

/-- Counterexample for C1: creating an order of 2 × 10 on `dbOneSoda`
persists totalAmount 20 — the plain subtotal — while the claimed formula
`subtotal − discountAmount + tax` gives 113/5 = 22.60 at the 13% rate.
The persisted total contains no tax. -/
theorem persisted_total_has_no_tax :
    (createOrder dbOneSoda 1 [⟨1, 2⟩]).2 =
      .ok ⟨1, some 1, .CREATED, none, none, 20⟩ ∧
    subtotalOf (createOrder dbOneSoda 1 [⟨1, 2⟩]).1 1 = 20 ∧
    specDiscountAmount none 0 20 = 0 ∧
    specGrandTotal 20 0 = 113 / 5 ∧
    (20 : Money) ≠ 113 / 5 :=
  ⟨by with_unfolding_all rfl, by with_unfolding_all rfl,
   by with_unfolding_all rfl, by with_unfolding_all rfl,
   by with_unfolding_all decide⟩

/-- Witness for C1 (amended): instantiating the CreateOrder and
RemoveDiscount parts on concrete states. -/
theorem persisted_total_formula_witness :
    (∃ o, (createOrder dbOneSoda 1 [⟨1, 2⟩]).2 = .ok o ∧ o.id = 1 ∧
      o.discountType = none ∧
      o.totalAmount = subtotalOf (createOrder dbOneSoda 1 [⟨1, 2⟩]).1 o.id) ∧
    (∀ o' ∈ (removeDiscount dbTwoLines 1).1.orders, o'.id = 1 →
      o'.totalAmount = subtotalOf (removeDiscount dbTwoLines 1).1 1 ∧
      o'.discountType = none) :=
  ⟨persisted_total_formula.1 dbOneSoda 1 [⟨1, 2⟩] (by decide) (by decide)
      (by decide) (by decide) (by decide),
   persisted_total_formula.2.2.2.2 dbTwoLines 1
      ⟨1, none, .CREATED, none, none, 25⟩ (by with_unfolding_all rfl)⟩

/-- C8 (amended): CreateOrder rejects a non-positive quantity with the
schema's 400 validation error.  A dangling table or menu item reference
makes the single create throw on its foreign key, so nothing at all is
persisted, but the handler reports only the caught generic 500
(`'Failed to create order'`) — there is no typed InvalidReference
response.  With valid quantities and intact references the order is
created with the line-total sum as its total. -/
theorem create_order_reference_failures :
    (∀ db tid (items : List NewItemReq), (∃ i ∈ items, i.quantity ≤ 0) →
        createOrder db tid items = (db, .error .invalidInput)) ∧
    (∀ db tid (items : List NewItemReq), items ≠ [] →
        (∀ i ∈ items, 0 < i.quantity) →
        ((db.tables.any fun t => t.id = tid) = false ∨
         (items.all fun i => db.menuItems.any fun m => m.id = i.menuItemId) = false) →
        createOrder db tid items = (db, .error .internalError)) ∧
    (∀ db tid (items : List NewItemReq), items ≠ [] →
        (∀ i ∈ items, 0 < i.quantity) →
        (db.tables.any fun t => t.id = tid) = true →
        (items.all fun i => db.menuItems.any fun m => m.id = i.menuItemId) = true →
        (createOrder db tid items).2 = .ok
          { id := db.nextOrderId, tableId := some tid, status := .CREATED
            discountType := none, discountValue := none
            totalAmount := (items.map (fun i =>
              priceOf db i.menuItemId * (i.quantity : Money))).sum }) := by
  refine ⟨?_, ?_, ?_⟩
  · rintro db tid items ⟨i, hi, hle⟩
    unfold createOrder
    rw [if_pos (Or.inr (List.any_eq_true.mpr ⟨i, hi, by simpa using hle⟩))]
  · intro db tid items hne hqty hmiss
    unfold createOrder
    rw [if_neg (createOrder_guard_passes items hne hqty)]
    rw [if_neg ?_]
    intro hc
    rw [Bool.and_eq_true] at hc
    rcases hmiss with h | h
    · rw [hc.1] at h
      exact Bool.noConfusion h
    · rw [hc.2] at h
      exact Bool.noConfusion h
  · intro db tid items hne hqty htab hmi
    exact (createOrder_success db tid items hne hqty htab hmi).1

/-- One table and an empty catalog. -/
def dbNoCatalog : DB :=
  { tables := [⟨1, .VACANT, none⟩]
    orders := []
    orderItems := []
    payments := []
    menuItems := []
    nextOrderId := 1
    nextItemId := 1 }

/-- Counterexample for C8: menu item 99 does not exist; CreateOrder
fails, but with the caught generic 500 rather than a typed reference
error, and the returned state is the input state — nothing persisted. -/
theorem unknown_menu_item_generic_500 :
    dbNoCatalog.findMenuItem 99 = none ∧
    createOrder dbNoCatalog 1 [⟨99, 2⟩] = (dbNoCatalog, .error .internalError) ∧
    ApiError.internalError ≠ ApiError.notFound :=
  ⟨by with_unfolding_all rfl, by with_unfolding_all rfl, by decide⟩

/-- Witness for C8 (amended): a zero quantity is rejected as invalid
input, and a dangling menu item reference yields the generic 500 with
the state unchanged. -/
theorem create_order_reference_failures_witness :
    createOrder dbNoCatalog 1 [⟨99, 0⟩] = (dbNoCatalog, .error .invalidInput) ∧
    createOrder dbNoCatalog 1 [⟨99, 2⟩] = (dbNoCatalog, .error .internalError) :=
  ⟨create_order_reference_failures.1 dbNoCatalog 1 [⟨99, 0⟩]
      ⟨⟨99, 0⟩, by decide, by decide⟩,
   create_order_reference_failures.2.1 dbNoCatalog 1 [⟨99, 2⟩] (by decide)
      (by decide) (Or.inr (by decide))⟩

end RMS
